import Mathlib

/-!
Shallow embedding of `src/github_repo_scraper.py` (class `GitHubScraper`).

Conventions used throughout:
* A Python value that may be `None` is an `Option`.
* `dict.get(k, d)` on a possibly-missing key is an `Option` field read with `getD`.
* Network I/O is made explicit: the sequence of values `_make_request` would
  return is passed in as data (`none` models a failed request returning `None`).
* Machine integers do not overflow in Python, so counts are `Int`/`Nat` directly.
-/

namespace GitHubScraper

/-- The fixed page size used by both pagination loops (`per_page = 100`). -/
def per_page : Nat := 100

/-- The `while True` pagination loop shared verbatim by `get_all_repos`
(lines 64-87) and `get_commits` (lines 128-154).  `responses` lists what
`_make_request` returns for page 1, 2, 3, ...; `none` is a failed request
(Python `None`).  The loop breaks on a failed or empty page without extending,
otherwise extends the accumulator, and breaks after a page shorter than
`per_page`. -/
def paginate {α : Type} : List (Option (List α)) → List α
  | [] => []
  | none :: _ => []
  | some data :: rest =>
    if data.length = 0 then []
    else if data.length < per_page then data
    else data ++ paginate rest

/-- Number of page requests the pagination loop issues before breaking. -/
def paginate_requests {α : Type} : List (Option (List α)) → Nat
  | [] => 0
  | none :: _ => 1
  | some data :: rest =>
    if data.length = 0 then 1
    else if data.length < per_page then 1
    else 1 + paginate_requests rest

/-- `get_all_repos` (lines 64-87): paginates over the user's repository list
endpoint.  The repositories returned are exactly what the shared loop collects. -/
def get_all_repos {α : Type} (responses : List (Option (List α))) : List α :=
  paginate responses

/-- `get_commits` (lines 128-154): paginates over the commit-list endpoint
filtered by `since`/`until`.  Same loop as `get_all_repos`. -/
def get_commits {α : Type} (responses : List (Option (List α))) : List α :=
  paginate responses

/-- A well-formed page sequence: every page before the last is full. -/
def full_until_last {α : Type} (pages : List (List α)) : Prop :=
  ∀ p ∈ pages.dropLast, p.length = per_page

instance {α : Type} (pages : List (List α)) : Decidable (full_until_last pages) := by
  unfold full_until_last; infer_instance

/-- One entry of a traffic series: `{"timestamp": ..., "count": ..., "uniques": ...}`.
`count` and `uniques` are read with `.get(k, 0)` (lines 112-113), so a missing
key is `none` here; `timestamp` is indexed directly and is required. -/
structure TrafficEntry where
  timestamp : String
  count : Option Int
  uniques : Option Int
  deriving DecidableEq, Repr

/-- The JSON payload of a traffic endpoint: it may contain a `views` and/or a
`clones` array (an absent key is `none`). -/
structure TrafficData where
  views : Option (List TrafficEntry)
  clones : Option (List TrafficEntry)
  deriving DecidableEq, Repr

/-- `get_traffic_for_date` (lines 101-116): starts from `{count: 0, uniques: 0}`;
with a non-`None` payload it picks the `views` array if the `views` key is
present, else the `clones` array if present, scans it for the first entry whose
`timestamp[:10]` equals `target_date`, and takes that entry's count/uniques. -/
def get_traffic_for_date (traffic_data : Option TrafficData) (target_date : String) :
    Int × Int :=
  match traffic_data with
  | none => (0, 0)
  | some td =>
    match (match td.views with | some v => some v | none => td.clones) with
    | none => (0, 0)
    | some entries =>
      match entries.find? (fun e => e.timestamp.take 10 == target_date) with
      | none => (0, 0)
      | some e => (e.count.getD 0, e.uniques.getD 0)

/-- A commit object from the list endpoint; only `sha` is read (line 165). -/
structure CommitRef where
  sha : String
  deriving DecidableEq, Repr

/-- The `stats` object of a commit-detail response; `additions` and `deletions`
are read with `.get(k, 0)` (lines 170-171), so each may be absent. -/
structure CommitDetailStats where
  additions : Option Int
  deletions : Option Int
  deriving DecidableEq, Repr

/-- A commit-detail response; the `stats` key may be absent (checked line 169). -/
structure CommitDetail where
  stats : Option CommitDetailStats
  deriving DecidableEq, Repr

/-- The result record of `get_commit_stats` (lines 173-178). -/
structure CommitStatsResult where
  commits : Nat
  additions : Int
  deletions : Int
  net_change : Int
  deriving DecidableEq, Repr

/-- The accumulation loop of `get_commit_stats` (lines 163-171): one detail
fetch per commit (`detail sha`, with `none` modelling a failed request); a
failed fetch or a response without a `stats` key adds nothing to either total. -/
def commit_stats_loop (detail : String → Option CommitDetail) :
    Int × Int → List CommitRef → Int × Int
  | acc, [] => acc
  | acc, c :: rest =>
    match detail c.sha with
    | some cd =>
      match cd.stats with
      | some s =>
        commit_stats_loop detail (acc.1 + s.additions.getD 0, acc.2 + s.deletions.getD 0) rest
      | none => commit_stats_loop detail acc rest
    | none => commit_stats_loop detail acc rest

/-- The additions one commit contributes to the aggregate: zero when its detail
fetch fails or the detail carries no `stats` object. -/
def detail_additions (detail : String → Option CommitDetail) (c : CommitRef) : Int :=
  match detail c.sha with
  | some cd =>
    match cd.stats with
    | some s => s.additions.getD 0
    | none => 0
  | none => 0

/-- The deletions one commit contributes to the aggregate. -/
def detail_deletions (detail : String → Option CommitDetail) (c : CommitRef) : Int :=
  match detail c.sha with
  | some cd =>
    match cd.stats with
    | some s => s.deletions.getD 0
    | none => 0
  | none => 0

/-- `get_commit_stats` (lines 156-178): lists the commits in the day window via
`get_commits`, then sums per-commit additions/deletions over detail fetches. -/
def get_commit_stats (responses : List (Option (List CommitRef)))
    (detail : String → Option CommitDetail) : CommitStatsResult :=
  let commits := get_commits responses
  let totals := commit_stats_loop detail (0, 0) commits
  { commits := commits.length
    additions := totals.1
    deletions := totals.2
    net_change := totals.1 - totals.2 }

/-- The outcome of `self.session.get` inside `_make_request`: either an HTTP
response arrived (after the adapter's internal retries), or a
`RequestException` was raised — a connection-level failure or the exhausted
retry budget of `Retry(total=3, ...)` configured in `_create_session`
(lines 37-41). -/
inductive GetOutcome (α : Type) where
  | response (status : Nat) (body : α)
  | exception
  deriving DecidableEq, Repr

/-- The retry budget configured in `_create_session` (line 38). -/
def retry_total : Nat := 3

/-- The status codes the adapter retries on (line 40). -/
def status_forcelist : List Nat := [429, 500, 502, 503, 504]

/-- `_make_request` (lines 52-62): `raise_for_status` raises for every 4xx/5xx
status; every `requests.exceptions.RequestException` — including the one
`raise_for_status` raises and the adapter's retry-exhaustion error — is caught,
printed, and turned into `None`.  The function is total: nothing escapes it. -/
def make_request {α : Type} (outcome : GetOutcome α) : Option α :=
  match outcome with
  | .exception => none
  | .response status body =>
    if 400 ≤ status ∧ status < 600 then none else some body

/-- The observable state of reading a file: absent, unreadable (an `IOError`),
or present with some textual content. -/
inductive ReadOutcome where
  | absent
  | ioError
  | content (text : String)
  deriving DecidableEq, Repr

/-- The persisted JSON store `{"historical_data": [...], "last_updated": ...}`
over an arbitrary entry type `σ` (Python stores plain dicts); the
`last_updated` key may be absent.  The code reads `historical_data` with
`.get(..., [])` and inserts the key when missing (lines 291, 296-303), so the
field is kept total here. -/
structure Historical (σ : Type) where
  historical_data : List σ
  last_updated : Option String
  deriving DecidableEq, Repr

/-- `load_historical_data` (lines 267-276), with parsing abstracted: `parse` is
`json.load` (`none` = `json.JSONDecodeError`).  An absent file, an unreadable
file, and an unparsable file all yield the empty store `{"historical_data": []}`
(no `last_updated` key); a parsed file is returned as-is. -/
def load_historical_data {σ : Type} (file : ReadOutcome)
    (parse : String → Option (Historical σ)) : Historical σ :=
  match file with
  | .absent => { historical_data := [], last_updated := none }
  | .ioError => { historical_data := [], last_updated := none }
  | .content text =>
    match parse text with
    | some store => store
    | none => { historical_data := [], last_updated := none }

/-- What `save_to_json` writes out: either the historical-store object, or (the
no-date fallback of lines 312-316) the incoming list dumped as-is. -/
inductive JsonFile (σ : Type) where
  | store (historical_data : List σ) (last_updated : Option String)
  | raw (items : List σ)
  deriving DecidableEq, Repr

/-- The entries a written JSON file holds. -/
def json_entries {σ : Type} : JsonFile σ → List σ
  | .store hd _ => hd
  | .raw items => items

/-- `save_to_json` (lines 278-316).  Python reads entry dates by key
(`"date" in data[0]`, `entry.get("date")`), so the date accessor `getDate` is a
parameter, with `none` meaning the entry has no `"date"` key; `now` stands for
`datetime.now().isoformat()` (line 306).  When `data` is nonempty and its first
element carries a date, existing entries of that date are removed (the removal
pass runs only when the date is already present, lines 293-299) and the new
data is appended; otherwise the fallback writes `data` itself. -/
def save_to_json {σ : Type} (getDate : σ → Option String) (data : List σ)
    (historical : Historical σ) (now : String) : JsonFile σ :=
  match data with
  | [] => .raw data
  | first :: _ =>
    match getDate first with
    | none => .raw data
    | some target_date =>
      let existing_dates := historical.historical_data.map getDate
      let kept :=
        if some target_date ∈ existing_dates then
          historical.historical_data.filter (fun e => getDate e ≠ some target_date)
        else historical.historical_data
      .store (kept ++ data) (some now)

/-- The `repository` sub-object of a snapshot as assembled by `get_repo_stats`
(lines 215-227): `private` and the four counters are read with defaults there,
so they are plain values; `description`, `url`, `language` may be `None`.
(`private` is a Lean keyword, hence the field name `priv`.) -/
structure RepositoryMeta where
  name : String
  full_name : String
  owner : String
  priv : Bool
  description : Option String
  url : Option String
  language : Option String
  stargazers_count : Int
  forks_count : Int
  watchers_count : Int
  open_issues_count : Int
  deriving DecidableEq, Repr

/-- The `traffic` sub-object of a snapshot (lines 228-233). -/
structure TrafficBlock where
  views : Int
  views_uniques : Int
  clones : Int
  clones_uniques : Int
  deriving DecidableEq, Repr

/-- One daily snapshot as assembled by `get_repo_stats` (lines 213-236). -/
structure DailySnapshot where
  date : String
  repository : RepositoryMeta
  traffic : TrafficBlock
  commits : CommitStatsResult
  scraped_at : String
  deriving DecidableEq, Repr

/-- One row of the CSV file, at file level: every cell is a string
(`csv.DictReader` yields strings; `csv.DictWriter` stringifies what it writes,
rendering Python booleans as `True`/`False` and `None` as the empty string). -/
structure CsvRow where
  date : String
  repository : String
  priv : String
  language : String
  stars : String
  forks : String
  watchers : String
  open_issues : String
  views : String
  views_uniques : String
  clones : String
  clones_uniques : String
  commits : String
  additions : String
  deletions : String
  net_change : String
  scraped_at : String
  deriving DecidableEq, Repr

/-- The row `save_to_csv` builds from one snapshot (lines 348-372), written at
file level.  This is the documented column mapping; note line 357 reads
`repo.get("language", "")` on a dict that always carries the key (possibly as
`None`, which the writer renders as the empty string), hence `getD ""`. -/
def snapshot_to_row (s : DailySnapshot) : CsvRow :=
  { date := s.date
    repository := s.repository.full_name
    priv := if s.repository.priv then "True" else "False"
    language := s.repository.language.getD ""
    stars := toString s.repository.stargazers_count
    forks := toString s.repository.forks_count
    watchers := toString s.repository.watchers_count
    open_issues := toString s.repository.open_issues_count
    views := toString s.traffic.views
    views_uniques := toString s.traffic.views_uniques
    clones := toString s.traffic.clones
    clones_uniques := toString s.traffic.clones_uniques
    commits := toString s.commits.commits
    additions := toString s.commits.additions
    deletions := toString s.commits.deletions
    net_change := toString s.commits.net_change
    scraped_at := s.scraped_at }

/-- `save_to_csv` (lines 318-389).  `file` is the CSV file's state (`none` =
absent; an unreadable existing file is treated like an absent one by
lines 331-337).  With no data the function returns at line 325 without touching
the file; otherwise it drops the existing rows whose `date` equals the truthy
target date (lines 340-344), appends one row per snapshot, and rewrites the
file whenever the combined row list is nonempty (lines 375-388). -/
def save_to_csv (data : List DailySnapshot) (file : Option (List CsvRow)) :
    Option (List CsvRow) :=
  match data with
  | [] => file
  | first :: _ =>
    let existing_rows := file.getD []
    let target_date := first.date
    let existing_rows :=
      if target_date ≠ "" then existing_rows.filter (fun r => r.date ≠ target_date)
      else existing_rows
    let new_rows := data.map snapshot_to_row
    let all_rows := existing_rows ++ new_rows
    if all_rows = [] then file else some all_rows

/-- `scrape_all_repos`' per-repository loop (lines 254-263):
`get_stats repo = none` models `get_repo_stats` raising an exception for that
repository, which is caught at line 261 and the loop continues. -/
def scrape_all_repos {ρ σ : Type} (get_stats : ρ → Option σ) : List ρ → List σ
  | [] => []
  | repo :: rest =>
    match get_stats repo with
    | some stats => stats :: scrape_all_repos get_stats rest
    | none => scrape_all_repos get_stats rest

/-- A concrete snapshot used as input for witness instantiations. -/
def sample_snapshot : DailySnapshot :=
  { date := "2024-01-07"
    repository :=
      { name := "r", full_name := "u/r", owner := "u", priv := false
        description := none, url := none, language := some "Python"
        stargazers_count := 1, forks_count := 0, watchers_count := 1
        open_issues_count := 0 }
    traffic := { views := 3, views_uniques := 2, clones := 1, clones_uniques := 1 }
    commits := { commits := 2, additions := 8, deletions := 3, net_change := 5 }
    scraped_at := "2024-01-14T00:00:00" }

lemma paginate_join {α : Type} (pages : List (List α)) (h : pages ≠ [])
    (hfull : full_until_last pages) (hlast : (pages.getLast h).length < per_page) :
    paginate (pages.map some) = pages.flatten := by
  induction pages with
  | nil => cases h rfl
  | cons p rest ih =>
    cases rest with
    | nil =>
      simp only [List.map, List.flatten, paginate, List.getLast] at *
      by_cases h0 : p.length = 0
      · simp [h0, List.length_eq_zero.mp h0]
      · simp [h0, hlast]
    | cons q rest' =>
      have hp : p.length = per_page := by
        apply hfull
        simp [List.dropLast]
      have hstep : paginate ((p :: q :: rest').map some) =
          p ++ paginate ((q :: rest').map some) := by
        simp only [List.map, paginate, hp]
        rw [if_neg (by simp [per_page]), if_neg (by simp)]
      rw [hstep, ih (by simp)
        (fun x hx => hfull x (by simp [List.dropLast] at hx ⊢; exact Or.inr hx))
        (by rwa [List.getLast_cons_cons] at hlast)]
      simp

lemma paginate_requests_count {α : Type} (pages : List (List α)) (h : pages ≠ [])
    (hfull : full_until_last pages) (hlast : (pages.getLast h).length < per_page) :
    paginate_requests (pages.map some) = pages.length := by
  induction pages with
  | nil => cases h rfl
  | cons p rest ih =>
    cases rest with
    | nil =>
      simp only [List.map, paginate_requests, List.getLast] at *
      by_cases h0 : p.length = 0
      · simp [h0]
      · simp [h0, hlast]
    | cons q rest' =>
      have hp : p.length = per_page := by
        apply hfull
        simp [List.dropLast]
      have hstep : paginate_requests ((p :: q :: rest').map some) =
          1 + paginate_requests ((q :: rest').map some) := by
        simp only [List.map, paginate_requests, hp]
        rw [if_neg (by simp [per_page]), if_neg (by simp)]
      rw [hstep, ih (by simp)
        (fun x hx => hfull x (by simp [List.dropLast] at hx ⊢; exact Or.inr hx))
        (by rwa [List.getLast_cons_cons] at hlast)]
      simp [Nat.add_comm]

lemma pages_length_eq_ceil {α : Type} (pages : List (List α)) (h : pages ≠ [])
    (hfull : full_until_last pages) (hlast : (pages.getLast h).length < per_page)
    (hne : pages.getLast h ≠ []) :
    pages.length = ((pages.map List.length).sum + per_page - 1) / per_page := by
  induction pages with
  | nil => cases h rfl
  | cons p rest ih =>
    cases rest with
    | nil =>
      simp only [List.getLast] at hlast hne
      have h1 : 1 ≤ p.length := List.length_pos.mpr hne
      simp only [List.map, List.sum_cons, List.sum_nil, List.length]
      simp only [per_page] at *
      omega
    | cons q rest' =>
      have hp : p.length = per_page := by
        apply hfull
        simp [List.dropLast]
      have ihv := ih (by simp)
        (fun x hx => hfull x (by simp [List.dropLast] at hx ⊢; exact Or.inr hx))
        (by rwa [List.getLast_cons_cons] at hlast)
        (by rwa [List.getLast_cons_cons] at hne)
      simp only [List.map, List.sum_cons, List.length, hp] at ihv ⊢
      simp only [per_page] at *
      omega

/-- **C2** (amended): for every finite sequence of pages in which every page
before the last is full (`per_page` items each) and the last page is short, the
pagination loop used by both `get_all_repos` and `get_commits` returns the
concatenation of all pages in page order and performs exactly one request per
page; that request count equals `ceil(total/per_page)` whenever the last page
is nonempty (an empty last page costs one extra request beyond the ceiling).
The loop stops on a failed page request, on an empty page, and on a page
shorter than `per_page`. -/
theorem c2_pagination_termination :
    (∀ (α : Type) (pages : List (List α)) (h : pages ≠ []),
      full_until_last pages → (pages.getLast h).length < per_page →
      get_all_repos (pages.map some) = pages.flatten ∧
      get_commits (pages.map some) = pages.flatten ∧
      paginate_requests (pages.map some) = pages.length ∧
      (pages.getLast h ≠ [] →
        pages.length = ((pages.map List.length).sum + per_page - 1) / per_page)) ∧
    (∀ (α : Type) (rest : List (Option (List α))),
      get_all_repos (none :: rest) = [] ∧ paginate_requests (none :: rest) = 1) ∧
    (∀ (α : Type) (rest : List (Option (List α))),
      get_all_repos (some [] :: rest) = [] ∧
      paginate_requests (some ([] : List α) :: rest) = 1) ∧
    (∀ (α : Type) (rest : List (Option (List α))) (p : List α),
      p.length ≠ 0 → p.length < per_page →
      get_all_repos (some p :: rest) = p ∧
      paginate_requests (some p :: rest) = 1) := by
  refine ⟨?_, ?_, ?_, ?_⟩
  · intro α pages h hfull hlast
    exact ⟨paginate_join pages h hfull hlast, paginate_join pages h hfull hlast,
      paginate_requests_count pages h hfull hlast,
      fun hne => pages_length_eq_ceil pages h hfull hlast hne⟩
  · intro α rest; exact ⟨rfl, rfl⟩
  · intro α rest; exact ⟨rfl, rfl⟩
  · intro α rest p h0 hlt
    constructor <;> simp [get_all_repos, paginate, paginate_requests, h0, hlt]

/-- **C2** as stated is false at one concrete input: for the single-page
sequence `[[]]` (an account with zero items), the last page has fewer than
`per_page` items and the concatenation is returned, yet the loop performs one
page request while `ceil(total/per_page) = ceil(0/100) = 0`. -/
theorem c2_counterexample :
    ([([] : List Nat)].getLast (by decide)).length < per_page ∧
    paginate_requests ([([] : List Nat)].map some) = 1 ∧
    (([([] : List Nat)].map List.length).sum + per_page - 1) / per_page = 0 := by
  decide

/-- Witness: `c2_pagination_termination` applied to the one-page sequence `[[0]]`. -/
theorem c2_pagination_termination_witness :
    get_all_repos ([[(0 : Nat)]].map some) = [[(0 : Nat)]].flatten ∧
    paginate_requests ([[(0 : Nat)]].map some) = [[(0 : Nat)]].length := by
  have h := c2_pagination_termination.1 Nat [[0]] (by decide) (by decide) (by decide)
  exact ⟨h.1, h.2.2.1⟩

lemma merged_filter_pos {α : Type} (p : α → Bool) (old new : List α)
    (hnew : ∀ a ∈ new, p a = true) :
    ((old.filter fun a => !(p a)) ++ new).filter p = new := by
  rw [List.filter_append, List.filter_filter]
  have h1 : old.filter (fun a => p a && !(p a)) = [] :=
    List.filter_eq_nil_iff.mpr (fun a _ => by cases h : p a <;> simp [h])
  rw [h1, List.nil_append, List.filter_eq_self.mpr hnew]

lemma merged_filter_neg {α : Type} (p : α → Bool) (old new : List α)
    (hnew : ∀ a ∈ new, p a = true) :
    ((old.filter fun a => !(p a)) ++ new).filter (fun a => !(p a)) =
      old.filter fun a => !(p a) := by
  rw [List.filter_append, List.filter_filter]
  have h2 : new.filter (fun a => !(p a)) = [] :=
    List.filter_eq_nil_iff.mpr (fun a ha => by simp [hnew a ha])
  rw [h2, List.append_nil]
  simp only [Bool.and_self]

lemma save_to_json_store {σ : Type} (getDate : σ → Option String) (data : List σ)
    (historical : Historical σ) (now D : String)
    (hne : data ≠ []) (hdate : ∀ e ∈ data, getDate e = some D) :
    save_to_json getDate data historical now =
      .store ((historical.historical_data.filter fun e => getDate e ≠ some D) ++ data)
        (some now) := by
  match data, hne with
  | first :: rest, _ =>
    have hfirst : getDate first = some D := hdate first (List.mem_cons_self _ _)
    simp only [save_to_json, hfirst]
    by_cases hmem : some D ∈ historical.historical_data.map getDate
    · simp [hmem]
    · simp only [if_neg hmem]
      have hid : historical.historical_data.filter (fun e => getDate e ≠ some D) =
          historical.historical_data := by
        apply List.filter_eq_self.mpr
        intro a ha
        simp only [ne_eq, decide_not, Bool.not_eq_true', decide_eq_false_iff_not]
        exact fun hc => hmem (hc ▸ List.mem_map_of_mem getDate ha)
      rw [hid]

lemma save_to_csv_some (data : List DailySnapshot) (file : Option (List CsvRow))
    (D : String) (hne : data ≠ []) (hD : D ≠ "") (hdate : ∀ s ∈ data, s.date = D) :
    save_to_csv data file =
      some (((file.getD []).filter fun r => r.date ≠ D) ++ data.map snapshot_to_row) := by
  match data, hne with
  | first :: rest, _ =>
    have hfirst : first.date = D := hdate first (List.mem_cons_self _ _)
    simp only [save_to_csv, hfirst]
    rw [if_pos hD, if_neg (by simp)]

lemma snapshot_to_row_date (s : DailySnapshot) : (snapshot_to_row s).date = s.date := rfl

/-- **C1**: merging a nonempty snapshot list, all of one date `D`, into an
existing store leaves exactly the new snapshots — in insertion order — as the
date-`D` entries, while every entry of another date is kept identical and in
its original relative order.  This holds for the JSON backend (`save_to_json`)
and for the CSV backend (`save_to_csv`; its target date, a `YYYY-MM-DD` string,
is nonempty). -/
theorem c1_merge_replace_by_date :
    (∀ (σ : Type) (getDate : σ → Option String) (data : List σ)
        (historical : Historical σ) (now D : String),
      data ≠ [] → (∀ e ∈ data, getDate e = some D) →
      save_to_json getDate data historical now =
        .store ((historical.historical_data.filter fun e => getDate e ≠ some D) ++ data)
          (some now) ∧
      (json_entries (save_to_json getDate data historical now)).filter
          (fun e => getDate e = some D) = data ∧
      (json_entries (save_to_json getDate data historical now)).filter
          (fun e => getDate e ≠ some D) =
        historical.historical_data.filter fun e => getDate e ≠ some D) ∧
    (∀ (data : List DailySnapshot) (file : Option (List CsvRow)) (D : String),
      data ≠ [] → D ≠ "" → (∀ s ∈ data, s.date = D) →
      save_to_csv data file =
        some (((file.getD []).filter fun r => r.date ≠ D) ++ data.map snapshot_to_row) ∧
      ((save_to_csv data file).getD []).filter (fun r => r.date = D) =
        data.map snapshot_to_row ∧
      ((save_to_csv data file).getD []).filter (fun r => r.date ≠ D) =
        (file.getD []).filter fun r => r.date ≠ D) := by
  constructor
  · intro σ getDate data historical now D hne hdate
    have hstore := save_to_json_store getDate data historical now D hne hdate
    refine ⟨hstore, ?_, ?_⟩
    · rw [hstore]
      show ((historical.historical_data.filter fun e => getDate e ≠ some D) ++ data).filter
          (fun e => getDate e = some D) = data
      simp only [ne_eq, decide_not]
      exact merged_filter_pos _ _ _ (fun a ha => by simp [hdate a ha])
    · rw [hstore]
      show ((historical.historical_data.filter fun e => getDate e ≠ some D) ++ data).filter
          (fun e => getDate e ≠ some D) =
        historical.historical_data.filter fun e => getDate e ≠ some D
      simp only [ne_eq, decide_not]
      exact merged_filter_neg _ _ _ (fun a ha => by simp [hdate a ha])
  · intro data file D hne hD hdate
    have hrows : ∀ r ∈ data.map snapshot_to_row, decide (r.date = D) = true := by
      intro r hr
      obtain ⟨s, hs, rfl⟩ := List.mem_map.mp hr
      simp [snapshot_to_row_date, hdate s hs]
    have hsave := save_to_csv_some data file D hne hD hdate
    refine ⟨hsave, ?_, ?_⟩
    · rw [hsave]
      show (((file.getD []).filter fun r => r.date ≠ D) ++ data.map snapshot_to_row).filter
          (fun r => r.date = D) = data.map snapshot_to_row
      simp only [ne_eq, decide_not]
      exact merged_filter_pos _ _ _ hrows
    · rw [hsave]
      show (((file.getD []).filter fun r => r.date ≠ D) ++ data.map snapshot_to_row).filter
          (fun r => r.date ≠ D) = (file.getD []).filter fun r => r.date ≠ D
      simp only [ne_eq, decide_not]
      exact merged_filter_neg _ _ _ hrows

/-- Witness: `c1_merge_replace_by_date` at a one-element snapshot list, an empty
JSON store, and an absent CSV file. -/
theorem c1_merge_replace_by_date_witness :
    save_to_json (fun _ : Nat => some "2024-01-07") [5] ⟨[], none⟩ "t" =
      .store [5] (some "t") ∧
    save_to_csv [sample_snapshot] none = some [snapshot_to_row sample_snapshot] := by
  constructor
  · have h := (c1_merge_replace_by_date.1 Nat (fun _ => some "2024-01-07") [5] ⟨[], none⟩
      "t" "2024-01-07" (by decide) (fun e _ => rfl)).1
    simpa using h
  · have h := (c1_merge_replace_by_date.2 [sample_snapshot] none "2024-01-07" (by decide)
      (by decide) (by intro s hs; simp only [List.mem_singleton] at hs; rw [hs]; rfl)).1
    simpa using h

/-- **C5**: merging the same nonempty one-date snapshot list twice in
succession stores the same entries as merging it once — the second merge drops
the first merge's entries for the date and re-appends the identical set — for
the JSON backend and the CSV backend (CSV with a nonempty date). -/
theorem c5_merge_idempotent :
    (∀ (σ : Type) (getDate : σ → Option String) (data : List σ)
        (historical : Historical σ) (now now2 D : String),
      data ≠ [] → (∀ e ∈ data, getDate e = some D) →
      json_entries (save_to_json getDate data
          ⟨json_entries (save_to_json getDate data historical now), some now⟩ now2) =
        json_entries (save_to_json getDate data historical now)) ∧
    (∀ (data : List DailySnapshot) (file : Option (List CsvRow)) (D : String),
      data ≠ [] → D ≠ "" → (∀ s ∈ data, s.date = D) →
      save_to_csv data (save_to_csv data file) = save_to_csv data file) := by
  constructor
  · intro σ getDate data historical now now2 D hne hdate
    have hd : ∀ a ∈ data, decide (getDate a = some D) = true :=
      fun a ha => by simp [hdate a ha]
    have h1 := save_to_json_store getDate data historical now D hne hdate
    rw [h1]
    rw [save_to_json_store getDate data _ now2 D hne hdate]
    simp only [json_entries, ne_eq, decide_not]
    rw [merged_filter_neg _ _ _ hd]
  · intro data file D hne hD hdate
    have hrows : ∀ r ∈ data.map snapshot_to_row, decide (r.date = D) = true := by
      intro r hr
      obtain ⟨s, hs, rfl⟩ := List.mem_map.mp hr
      simp [snapshot_to_row_date, hdate s hs]
    have h1 := save_to_csv_some data file D hne hD hdate
    rw [h1]
    rw [save_to_csv_some data _ D hne hD hdate]
    simp only [Option.getD_some, ne_eq, decide_not]
    rw [merged_filter_neg _ _ _ hrows]

/-- Witness: `c5_merge_idempotent` at a one-element snapshot list over an
initially nonempty JSON store and an absent CSV file. -/
theorem c5_merge_idempotent_witness :
    json_entries (save_to_json (fun _ : Nat => some "d") [5]
        ⟨json_entries (save_to_json (fun _ : Nat => some "d") [5] ⟨[7], none⟩ "t1"),
          some "t1"⟩ "t2") =
      json_entries (save_to_json (fun _ : Nat => some "d") [5] ⟨[7], none⟩ "t1") ∧
    save_to_csv [sample_snapshot] (save_to_csv [sample_snapshot] none) =
      save_to_csv [sample_snapshot] none := by
  constructor
  · exact c5_merge_idempotent.1 Nat (fun _ => some "d") [5] ⟨[7], none⟩ "t1" "t2" "d"
      (by decide) (fun e _ => rfl)
  · exact c5_merge_idempotent.2 [sample_snapshot] none "2024-01-07" (by decide) (by decide)
      (by decide)

/-- **C6**: for one run's snapshots (nonempty, all of one nonempty date `D`),
persisting to both backends leaves the JSON `historical_data` entries of date
`D` and the CSV rows of date `D` representing the same repositories with equal
metric values: mapping the JSON entries through the documented column mapping
(`snapshot_to_row`) yields exactly the CSV rows. -/
theorem c6_json_csv_agreement :
    ∀ (data historical_entries : List DailySnapshot) (lu : Option String)
      (now : String) (file : Option (List CsvRow)) (D : String),
      data ≠ [] → D ≠ "" → (∀ s ∈ data, s.date = D) →
      ((json_entries (save_to_json (fun s => some s.date) data
          ⟨historical_entries, lu⟩ now)).filter (fun s => s.date = D)).map snapshot_to_row =
        ((save_to_csv data file).getD []).filter (fun r => r.date = D) := by
  intro data hist lu now file D hne hD hdate
  have hdates : ∀ e ∈ data, (fun s : DailySnapshot => some s.date) e = some D :=
    fun e he => by simp [hdate e he]
  have hsnap : ∀ s ∈ data, decide (s.date = D) = true := fun s hs => by simp [hdate s hs]
  have hrows : ∀ r ∈ data.map snapshot_to_row, decide (r.date = D) = true := by
    intro r hr
    obtain ⟨s, hs, rfl⟩ := List.mem_map.mp hr
    simp [snapshot_to_row_date, hdate s hs]
  rw [save_to_json_store (fun s : DailySnapshot => some s.date) data ⟨hist, lu⟩ now D hne
    hdates, save_to_csv_some data file D hne hD hdate]
  simp only [json_entries, Option.getD_some, ne_eq, Option.some.injEq, decide_not]
  rw [merged_filter_pos _ _ _ hsnap, merged_filter_pos _ _ _ hrows]

/-- Witness: `c6_json_csv_agreement` at a one-snapshot run over an empty JSON
store and an absent CSV file. -/
theorem c6_json_csv_agreement_witness :
    ((json_entries (save_to_json (fun s => some s.date) [sample_snapshot]
        ⟨[], none⟩ "t")).filter (fun s => s.date = "2024-01-07")).map snapshot_to_row =
      ((save_to_csv [sample_snapshot] none).getD []).filter
        (fun r => r.date = "2024-01-07") := by
  exact c6_json_csv_agreement [sample_snapshot] [] none "t" none "2024-01-07"
    (by decide) (by decide) (by decide)

lemma commit_stats_loop_eq (detail : String → Option CommitDetail) (a d : Int)
    (l : List CommitRef) :
    commit_stats_loop detail (a, d) l =
      (a + (l.map (detail_additions detail)).sum,
       d + (l.map (detail_deletions detail)).sum) := by
  induction l generalizing a d with
  | nil => simp [commit_stats_loop]
  | cons c rest ih =>
    cases hd : detail c.sha with
    | none =>
      simp only [commit_stats_loop, hd, List.map_cons, List.sum_cons,
        detail_additions, detail_deletions, ih, Prod.mk.injEq]
      omega
    | some cd =>
      cases hs : cd.stats with
      | none =>
        simp only [commit_stats_loop, hd, hs, List.map_cons, List.sum_cons,
          detail_additions, detail_deletions, ih, Prod.mk.injEq]
        omega
      | some s =>
        simp only [commit_stats_loop, hd, hs, List.map_cons, List.sum_cons,
          detail_additions, detail_deletions, ih, Prod.mk.injEq]
        omega

/-- **C3**: `get_commit_stats` reports `commits` = the number of SHAs found in
the day window, `additions`/`deletions` = the sums of the per-commit detail
stats — where a failed detail fetch or a detail without a `stats` object
contributes zero instead of aborting the aggregation — and
`net_change` = additions − deletions. -/
theorem c3_commit_stats :
    (∀ (responses : List (Option (List CommitRef)))
        (detail : String → Option CommitDetail),
      get_commit_stats responses detail =
        { commits := (get_commits responses).length
          additions := ((get_commits responses).map (detail_additions detail)).sum
          deletions := ((get_commits responses).map (detail_deletions detail)).sum
          net_change := ((get_commits responses).map (detail_additions detail)).sum -
            ((get_commits responses).map (detail_deletions detail)).sum }) ∧
    (∀ (detail : String → Option CommitDetail) (c : CommitRef),
      detail c.sha = none →
      detail_additions detail c = 0 ∧ detail_deletions detail c = 0) ∧
    (∀ (detail : String → Option CommitDetail) (c : CommitRef) (cd : CommitDetail),
      detail c.sha = some cd → cd.stats = none →
      detail_additions detail c = 0 ∧ detail_deletions detail c = 0) ∧
    (∀ (responses : List (Option (List CommitRef)))
        (detail : String → Option CommitDetail),
      (∀ c ∈ get_commits responses, detail c.sha = none) →
      (get_commit_stats responses detail).commits = (get_commits responses).length ∧
      (get_commit_stats responses detail).additions = 0 ∧
      (get_commit_stats responses detail).deletions = 0) := by
  refine ⟨?_, ?_, ?_, ?_⟩
  · intro responses detail
    simp only [get_commit_stats, commit_stats_loop_eq, zero_add]
  · intro detail c h
    constructor <;> simp [detail_additions, detail_deletions, h]
  · intro detail c cd h hs
    constructor <;> simp [detail_additions, detail_deletions, h, hs]
  · intro responses detail hall
    have ha : ((get_commits responses).map (detail_additions detail)).sum = 0 := by
      apply List.sum_eq_zero
      intro x hx
      obtain ⟨c, hc, rfl⟩ := List.mem_map.mp hx
      simp [detail_additions, hall c hc]
    have hd : ((get_commits responses).map (detail_deletions detail)).sum = 0 := by
      apply List.sum_eq_zero
      intro x hx
      obtain ⟨c, hc, rfl⟩ := List.mem_map.mp hx
      simp [detail_deletions, hall c hc]
    refine ⟨rfl, ?_, ?_⟩
    · show (commit_stats_loop detail (0, 0) (get_commits responses)).1 = 0
      rw [commit_stats_loop_eq]
      simpa using ha
    · show (commit_stats_loop detail (0, 0) (get_commits responses)).2 = 0
      rw [commit_stats_loop_eq]
      simpa using hd

/-- Witness: `c3_commit_stats` on a one-commit window where the detail fetch
fails — the count is still reported and the totals default to zero. -/
theorem c3_commit_stats_witness :
    (get_commit_stats [some [⟨"a1b2"⟩]] (fun _ => none)).commits =
      (get_commits [some [(⟨"a1b2"⟩ : CommitRef)]]).length ∧
    (get_commit_stats [some [⟨"a1b2"⟩]] (fun _ => none)).additions = 0 ∧
    (get_commit_stats [some [⟨"a1b2"⟩]] (fun _ => none)).deletions = 0 := by
  exact c3_commit_stats.2.2.2 [some [⟨"a1b2"⟩]] (fun _ => none) (fun c _ => rfl)

/-- **C4**: `get_traffic_for_date` matches entries on the first 10 characters
of the ISO timestamp only and returns the first matching entry's
`count`/`uniques` (an absent key defaulting to 0); it returns `(0, 0)` when no
entry matches, when the payload is `None`, and when neither array is present;
it reads the `views` array when that key exists, else the `clones` array. -/
theorem c4_traffic_extraction :
    (∀ target : String, get_traffic_for_date none target = (0, 0)) ∧
    (∀ target : String, get_traffic_for_date (some ⟨none, none⟩) target = (0, 0)) ∧
    (∀ (entries : List TrafficEntry) (cl : Option (List TrafficEntry))
        (target : String),
      (∀ e ∈ entries, e.timestamp.take 10 ≠ target) →
      get_traffic_for_date (some ⟨some entries, cl⟩) target = (0, 0) ∧
      get_traffic_for_date (some ⟨none, some entries⟩) target = (0, 0)) ∧
    (∀ (pre post : List TrafficEntry) (e : TrafficEntry)
        (cl : Option (List TrafficEntry)) (target : String),
      (∀ x ∈ pre, x.timestamp.take 10 ≠ target) → e.timestamp.take 10 = target →
      get_traffic_for_date (some ⟨some (pre ++ e :: post), cl⟩) target =
        (e.count.getD 0, e.uniques.getD 0) ∧
      get_traffic_for_date (some ⟨none, some (pre ++ e :: post)⟩) target =
        (e.count.getD 0, e.uniques.getD 0)) ∧
    (∀ (v : List TrafficEntry) (cl : Option (List TrafficEntry)) (target : String),
      get_traffic_for_date (some ⟨some v, cl⟩) target =
        get_traffic_for_date (some ⟨some v, none⟩) target) := by
  refine ⟨fun _ => rfl, fun _ => rfl, ?_, ?_, fun _ _ _ => rfl⟩
  · intro entries cl target h
    have hfind : (entries.find? fun e => e.timestamp.take 10 == target) = none :=
      List.find?_eq_none.mpr (fun x hx => by simpa using h x hx)
    have h1 : get_traffic_for_date (some ⟨some entries, cl⟩) target =
        (match entries.find? (fun e => e.timestamp.take 10 == target) with
         | none => ((0 : Int), (0 : Int))
         | some e => (e.count.getD 0, e.uniques.getD 0)) := rfl
    have h2 : get_traffic_for_date (some ⟨none, some entries⟩) target =
        (match entries.find? (fun e => e.timestamp.take 10 == target) with
         | none => ((0 : Int), (0 : Int))
         | some e => (e.count.getD 0, e.uniques.getD 0)) := rfl
    constructor
    · rw [h1, hfind]
    · rw [h2, hfind]
  · intro pre post e cl target hpre he
    have hfind : ((pre ++ e :: post).find? fun x => x.timestamp.take 10 == target) =
        some e := by
      have hpre' : (pre.find? fun x => x.timestamp.take 10 == target) = none :=
        List.find?_eq_none.mpr (fun x hx => by simpa using hpre x hx)
      have he' : (fun x : TrafficEntry => x.timestamp.take 10 == target) e = true := by
        simpa using he
      simp only [List.find?_append, hpre', Option.none_or]
      exact List.find?_cons_of_pos post he'
    have h1 : get_traffic_for_date (some ⟨some (pre ++ e :: post), cl⟩) target =
        (match (pre ++ e :: post).find? (fun x => x.timestamp.take 10 == target) with
         | none => ((0 : Int), (0 : Int))
         | some x => (x.count.getD 0, x.uniques.getD 0)) := rfl
    have h2 : get_traffic_for_date (some ⟨none, some (pre ++ e :: post)⟩) target =
        (match (pre ++ e :: post).find? (fun x => x.timestamp.take 10 == target) with
         | none => ((0 : Int), (0 : Int))
         | some x => (x.count.getD 0, x.uniques.getD 0)) := rfl
    constructor
    · rw [h1, hfind]
    · rw [h2, hfind]

/-- Witness: `c4_traffic_extraction` at a one-entry views series hit on the
target date. -/
theorem c4_traffic_extraction_witness :
    get_traffic_for_date
        (some ⟨some [⟨"2024-01-07T00:00:00Z", some 5, some 2⟩], none⟩) "2024-01-07" =
      (5, 2) := by
  have h := (c4_traffic_extraction.2.2.2.1 [] []
    ⟨"2024-01-07T00:00:00Z", some 5, some 2⟩ none "2024-01-07"
    (fun x hx => absurd hx (List.not_mem_nil x)) (by decide)).1
  simpa using h

/-- **C7**: the per-repository loop of `scrape_all_repos` returns exactly the
successfully assembled snapshots in enumeration order (`filterMap`); a
repository whose assembly raises loses only its own entry, and every
successful repository's snapshot is present in the output. -/
theorem c7_scrape_resilience :
    (∀ (ρ σ : Type) (get_stats : ρ → Option σ) (repos : List ρ),
      scrape_all_repos get_stats repos = repos.filterMap get_stats) ∧
    (∀ (ρ σ : Type) (get_stats : ρ → Option σ) (l1 : List ρ) (r : ρ) (l2 : List ρ),
      get_stats r = none →
      scrape_all_repos get_stats (l1 ++ r :: l2) =
        scrape_all_repos get_stats l1 ++ scrape_all_repos get_stats l2) ∧
    (∀ (ρ σ : Type) (get_stats : ρ → Option σ) (repos : List ρ) (r : ρ) (s : σ),
      r ∈ repos → get_stats r = some s → s ∈ scrape_all_repos get_stats repos) := by
  have key : ∀ (ρ σ : Type) (get_stats : ρ → Option σ) (repos : List ρ),
      scrape_all_repos get_stats repos = repos.filterMap get_stats := by
    intro ρ σ f repos
    induction repos with
    | nil => rfl
    | cons r rest ih =>
      cases h : f r with
      | none => simp [scrape_all_repos, List.filterMap_cons, h, ih]
      | some s => simp [scrape_all_repos, List.filterMap_cons, h, ih]
  refine ⟨key, ?_, ?_⟩
  · intro ρ σ f l1 r l2 h
    rw [key, key, key, List.filterMap_append, List.filterMap_cons]
    simp [h]
  · intro ρ σ f repos r s hr hs
    rw [key]
    exact List.mem_filterMap.mpr ⟨r, hr, hs⟩

/-- Witness: `c7_scrape_resilience` where the middle of three repositories
fails and the other two survive. -/
theorem c7_scrape_resilience_witness :
    scrape_all_repos (fun n : Nat => if n = 1 then none else some n) ([0] ++ 1 :: [2]) =
      scrape_all_repos (fun n : Nat => if n = 1 then none else some n) [0] ++
        scrape_all_repos (fun n : Nat => if n = 1 then none else some n) [2] := by
  exact c7_scrape_resilience.2.1 Nat Nat _ [0] 1 [2] (by decide)

/-- **C8**: `_make_request` returns `None` — no data — when the session raises
(a connection-level failure or the exhausted retry budget) and on every
error-status response, the non-retryable 4xx ones included; it returns the
parsed body on success, and, being a total function of the request outcome, it
never lets an exception reach its callers. -/
theorem c8_make_request_failure :
    (∀ (α : Type), make_request (.exception : GetOutcome α) = none) ∧
    (∀ (α : Type) (status : Nat) (body : α),
      400 ≤ status → status < 600 →
      make_request (.response status body) = none) ∧
    (∀ (α : Type) (status : Nat) (body : α),
      status < 400 → make_request (.response status body) = some body) := by
  refine ⟨fun _ => rfl, ?_, ?_⟩
  · intro α status body h1 h2
    show (if 400 ≤ status ∧ status < 600 then none else some body) = none
    rw [if_pos ⟨h1, h2⟩]
  · intro α status body h
    show (if 400 ≤ status ∧ status < 600 then none else some body) = some body
    rw [if_neg (by omega)]

/-- Witness: `c8_make_request_failure` at a 404 response. -/
theorem c8_make_request_failure_witness :
    make_request (.response 404 "Not Found") = none := by
  exact c8_make_request_failure.2.1 String 404 "Not Found" (by decide) (by decide)

/-- **C9**: `load_historical_data` returns the parsed store when the file is
present and parses; an absent file, an unreadable file, and an unparsable file
all yield the empty store `{"historical_data": []}` — the failure is absorbed,
never propagated. -/
theorem c9_load_historical_data :
    (∀ (σ : Type) (parse : String → Option (Historical σ)) (text : String)
        (store : Historical σ),
      parse text = some store → load_historical_data (.content text) parse = store) ∧
    (∀ (σ : Type) (parse : String → Option (Historical σ)) (text : String),
      parse text = none →
      load_historical_data (.content text) parse = ⟨[], none⟩) ∧
    (∀ (σ : Type) (parse : String → Option (Historical σ)),
      load_historical_data .absent parse = ⟨[], none⟩ ∧
      load_historical_data .ioError parse = ⟨[], none⟩) := by
  refine ⟨?_, ?_, fun _ _ => ⟨rfl, rfl⟩⟩
  · intro σ parse text store h
    simp [load_historical_data, h]
  · intro σ parse text h
    simp [load_historical_data, h]

/-- Witness: `c9_load_historical_data` with a parser that succeeds on one file
and one that fails on another. -/
theorem c9_load_historical_data_witness :
    load_historical_data (.content "\x7b\x7d")
        (fun _ => some (⟨[], some "2024-01-01"⟩ : Historical Nat)) =
      ⟨[], some "2024-01-01"⟩ ∧
    load_historical_data (.content "not json")
        (fun _ => (none : Option (Historical Nat))) = ⟨[], none⟩ := by
  exact ⟨c9_load_historical_data.1 Nat _ "\x7b\x7d" ⟨[], some "2024-01-01"⟩ rfl,
    c9_load_historical_data.2.1 Nat _ "not json" rfl⟩

/-- **C10**: with an empty snapshot list, `save_to_csv` returns at once and the
CSV file is unchanged, while `save_to_json` takes its no-date fallback and
overwrites the JSON file with the empty list itself, discarding whatever
`historical_data` structure the store held. -/
theorem c10_empty_run_divergence :
    (∀ (file : Option (List CsvRow)), save_to_csv [] file = file) ∧
    (∀ (σ : Type) (getDate : σ → Option String) (historical : Historical σ)
        (now : String),
      save_to_json getDate [] historical now = .raw []) := by
  exact ⟨fun _ => rfl, fun _ _ _ _ => rfl⟩

end GitHubScraper
